import Mathlib

/-!
Shallow embedding of the snapshot change-detection engine of
joelw/cpanel-site-checker (Python), together with proofs about its
run-identifier allocation (`_get_next_date_serial`), predecessor search
(`_find_previous_txt_file`, `find_previous_screenshot`), retention policy
and result assembly (`_fetch_page`), image normalization
(`resize_screenshot`), perceptual-hash comparison (`compare_screenshots`)
and redirect-limited fetching (`fetch_url`).

Python strings are modelled as `List Char` (code-point lists, ASCII in
practice for the data involved).  The filesystem is an association list
from path to file bytes; the external collaborators (Selenium driver,
PIL, imagehash, hashlib, requests) are oracles passed in explicitly, so
every embedded function is a pure, executable Lean function.
-/

namespace SiteChecker

/-- Python `str`, modelled as a list of characters. -/
abbrev Str := List Char

/-- The newline character written between the fields of a text artifact. -/
def nl : Str := "\n".data

/-- Python string `<` (lexicographic comparison by code point): a proper
prefix is smaller, otherwise the first differing code point decides. -/
def strLt : Str → Str → Bool
  | [], [] => false
  | [], _ :: _ => true
  | _ :: _, [] => false
  | a :: as, b :: bs =>
    decide (a.toNat < b.toNat) || ((a.toNat == b.toNat) && strLt as bs)

/-- Decimal value of a list of ASCII digit characters (accumulator fold,
as Python `int` builds the value). -/
def decVal (ds : Str) : Nat :=
  ds.foldl (fun a c => a * 10 + (c.toNat - 48)) 0

/-- Decimal digit characters of `n`, most significant first; `fuel`-driven
so that the kernel can evaluate it (fuel `n+1` always suffices). -/
def natDecimalAux : Nat → Nat → Str
  | 0, _ => []
  | fuel + 1, n =>
    if n < 10 then [Nat.digitChar n]
    else natDecimalAux fuel (n / 10) ++ [Nat.digitChar (n % 10)]

/-- Decimal representation of a natural number, as Python `str(n)`. -/
def natDecimal (n : Nat) : Str := natDecimalAux (n + 1) n

/-- Python `str(i)` for an integer. -/
def intRepr (i : Int) : Str :=
  if i < 0 then '-' :: natDecimal (-i).toNat else natDecimal i.toNat

/-- Python `f"{n:02d}"` for the serial written into a run identifier:
the decimal digits padded to width 2 with a leading zero (for a negative
number the sign counts towards the width). -/
def intFormat02 (i : Int) : Str :=
  if i < 0 then '-' :: natDecimal (-i).toNat
  else
    let ds := natDecimal i.toNat
    if ds.length < 2 then '0' :: ds else ds

/-- The two-digit zero-padded form of a serial `s ≤ 99`, i.e. the shape
of the serial suffix of a well-formed `YYYYMMDDnn` run identifier. -/
def serial2 (s : Nat) : Str := [Nat.digitChar (s / 10), Nat.digitChar (s % 10)]

/-- Nonempty all-digit strings and their value (helper for `pyInt`). -/
def digitsVal? (ds : Str) : Option Nat :=
  if ds.isEmpty then none
  else if ds.all Char.isDigit then some (decVal ds)
  else none

/-- Python `int(s)`: surrounding whitespace stripped, an optional sign,
then a nonempty run of digits; anything else raises `ValueError`,
modelled as `none`.  (Unicode digits and underscore grouping are not
modelled; the program only ever parses two-character ASCII slices.) -/
def pyInt (s : Str) : Option Int :=
  let t := ((s.dropWhile Char.isWhitespace).reverse.dropWhile Char.isWhitespace).reverse
  match t with
  | '+' :: ds => (digitsVal? ds).map Int.ofNat
  | '-' :: ds => (digitsVal? ds).map (fun n => -(Int.ofNat n))
  | ds => (digitsVal? ds).map Int.ofNat

/-- Truthiness of an optional Python string (`if s:`): `None` and the
empty string are falsy. -/
def pyTruthy : Option Str → Bool
  | none => false
  | some s => !s.isEmpty

/-- Python `s.replace(pat, rep)` for a nonempty pattern: replace
non-overlapping occurrences left to right.  `fuel`-driven so the kernel
can evaluate it; each step consumes at least one character of `s`, so
fuel `s.length` always suffices for a nonempty pattern. -/
def strReplaceAux (pat rep : Str) : Nat → Str → Str
  | 0, s => s
  | fuel + 1, s =>
    match s with
    | [] => []
    | c :: cs =>
      if pat.isPrefixOf (c :: cs) then
        rep ++ strReplaceAux pat rep fuel ((c :: cs).drop pat.length)
      else
        c :: strReplaceAux pat rep fuel cs

/-- Python `s.replace(pat, rep)`.  (For the empty pattern Python
interleaves the replacement everywhere; the program only ever replaces
the literal `".png"`, so the empty-pattern case is returned unchanged.) -/
def strReplace (s pat rep : Str) : Str :=
  if pat.isEmpty then s else strReplaceAux pat rep s.length s

/-! ## Filesystem model

The output directory tree is the only mutable state the engine touches.
It is modelled as an association list from full path to file bytes
(both `Str`); `glob` enumerates the stored paths. -/

/-- The filesystem: stored files, keyed by full path. -/
abbrev FS := List (Str × Str)

/-- Read a file (`open(p).read()` / `Image.open(p)`): the stored bytes,
or `none` when no file exists at `p` (Python raises, callers catch). -/
def fsLookup (fs : FS) (p : Str) : Option Str :=
  (fs.find? (fun e => e.1 == p)).map (fun e => e.2)

/-- `os.path.exists(p)`. -/
def fsExists (fs : FS) (p : Str) : Bool := (fsLookup fs p).isSome

/-- Write a file (`open(p, "w")` / `img.save(p)`), replacing any previous
content at the same path. -/
def fsWrite (fs : FS) (p c : Str) : FS :=
  (p, c) :: fs.filter (fun e => !(e.1 == p))

/-- `os.remove(p)` (the program only calls it on paths it just wrote or
checked with `os.path.exists`). -/
def fsRemove (fs : FS) (p : Str) : FS :=
  fs.filter (fun e => !(e.1 == p))

/-- `os.path.join(a, b)` for a nonempty directory `a`. -/
def pathJoin (a b : Str) : Str := a ++ "/".data ++ b

/-- A path component matched by a bare `*` glob component: nonempty and
not a hidden entry (glob `*` does not match a leading dot). -/
def globStar (s : Str) : Bool := !s.isEmpty && !(s.head? == some '.')

/-- Does path `p` match the glob pattern `outputDir/*/*/<name>` (with
`nameOk` deciding the final component)?  `p` must extend `outputDir`
with exactly two directory components and a file name. -/
def matchesRunHostFile (outputDir : Str) (nameOk : Str → Bool) (p : Str) : Bool :=
  (outputDir ++ "/".data).isPrefixOf p &&
    (match (p.drop (outputDir.length + 1)).splitOn '/' with
     | [d, h, n] => globStar d && globStar h && nameOk n
     | _ => false)

/-- `glob.glob(os.path.join(output_dir, "*", "*", name_pattern))`:
all stored paths matching the three-level pattern, in store order
(glob returns OS directory order, which is arbitrary). -/
def globRunHostFile (outputDir : Str) (nameOk : Str → Bool) (fs : FS) : List Str :=
  (fs.map (fun e => e.1)).filter (matchesRunHostFile outputDir nameOk)

/-- File-name pattern `f"{user}-{domain}.txt"` (a literal, no wildcard). -/
def txtNameMatch (user domain : Str) (n : Str) : Bool :=
  n == user ++ "-".data ++ domain ++ ".txt".data

/-- File-name pattern `f"*-{domain}.png"`: any non-hidden stem followed
by `-<domain>.png`. -/
def pngNameMatch (domain : Str) (n : Str) : Bool :=
  ("-".data ++ domain ++ ".png".data).isSuffixOf n && !(n.head? == some '.')

/-! ## Run-identifier extraction and the predecessor search -/

/-- The date key the predecessor search sorts by (`extract_date` in both
`_find_previous_txt_file` and `find_previous_screenshot`): the first
path component that looks like a `YYYYMMDDnn` (10 chars) or legacy
`YYYYMMDD` (8 chars) run identifier, else the fallback `"0000000000"`. -/
def extract_date (p : Str) : Str :=
  match (p.splitOn '/').find? (fun part =>
      (part.length == 10 || part.length == 8) && (part.take 8).all Char.isDigit) with
  | some part => part
  | none => "0000000000".data

/-- The run-identifier component of a path, if any (the loop that fills
`txt_previous_date_serial` / `screenshot_previous_date_serial`). -/
def extractRunPart (p : Str) : Option Str :=
  (p.splitOn '/').find? (fun part =>
    (part.length == 10 || part.length == 8) && (part.take 8).all Char.isDigit)

/-- Stable insertion into a list sorted by `le` (greatest first when `le`
is a descending comparison). -/
def insertByDesc (le : Str → Str → Bool) (x : Str) : List Str → List Str
  | [] => [x]
  | y :: ys => if le x y then x :: y :: ys else y :: insertByDesc le x ys

/-- Stable sort by `le`.  Python `list.sort(key=k, reverse=True)` is a
stable descending sort; any stable sort under the same total preorder
produces the same list, so stable insertion sort models it exactly. -/
def sortByDesc (le : Str → Str → Bool) : List Str → List Str
  | [] => []
  | x :: xs => insertByDesc le x (sortByDesc le xs)

/-- The comparison realising `sort(key=extract_date, reverse=True)`:
`f` may precede `g` when the date key of `f` is not below that of `g`. -/
def byRunDesc (f g : Str) : Bool := !(strLt (extract_date f) (extract_date g))

/-- The candidate set of `_find_previous_txt_file`: every stored
`*/*/{user}-{domain}.txt` under the output root, minus paths starting
with the current run directory. -/
def txt_candidates (outputDir user domain currentDirectory : Str) (fs : FS) : List Str :=
  (globRunHostFile outputDir (txtNameMatch user domain) fs).filter
    (fun f => !(currentDirectory.isPrefixOf f))

/-- `SiteChecker._find_previous_txt_file`: the most recent prior text
artifact for `(user, domain)`, or `none`. -/
def find_previous_txt_file (outputDir user domain currentDirectory : Str) (fs : FS) :
    Option Str :=
  if (txt_candidates outputDir user domain currentDirectory fs).isEmpty then none
  else (sortByDesc byRunDesc (txt_candidates outputDir user domain currentDirectory fs)).head?

/-- The candidate set of `ScreenshotManager.find_previous_screenshot`. -/
def screenshot_candidates (outputDir domain currentDirectory : Str) (fs : FS) : List Str :=
  (globRunHostFile outputDir (pngNameMatch domain) fs).filter
    (fun f => !(currentDirectory.isPrefixOf f))

/-- `ScreenshotManager.find_previous_screenshot`: the most recent prior
screenshot for `domain`, or `none`. -/
def find_previous_screenshot (outputDir domain currentDirectory : Str) (fs : FS) :
    Option Str :=
  if (screenshot_candidates outputDir domain currentDirectory fs).isEmpty then none
  else (sortByDesc byRunDesc (screenshot_candidates outputDir domain currentDirectory fs)).head?

/-! ## Run-identifier allocation -/

/-- `SiteChecker._get_next_date_serial`, with today and the entries of
the output directory (Python lists them with `os.listdir` and keeps the
subdirectories starting with today) passed explicitly: scan the existing
run identifiers for today, take the highest two-digit serial among the
well-formed ten-character ones, and return today plus that serial plus
one, zero-padded; raise `RuntimeError` once the serial would pass 99. -/
def get_next_date_serial (today : Str) (dirEntries : List Str) : Except Str Str :=
  let existing := dirEntries.filter (fun e => today.isPrefixOf e)
  let maxSerial : Int := existing.foldl (fun m d =>
    if d.length == 10 then
      match pyInt (d.drop 8) with
      | some s => max m s
      | none => m
    else m) 0
  let nextSerial := maxSerial + 1
  if 99 < nextSerial then
    Except.error ("Cannot create more than 99 directories in one day (reached ".data
      ++ intRepr nextSerial ++ ")".data)
  else
    Except.ok (today ++ intFormat02 nextSerial)

/-! ## Images, normalization and perceptual-hash comparison -/

/-- The metadata PIL exposes about a decoded image. -/
structure Img where
  width : Nat
  height : Nat
deriving DecidableEq

/-- Oracle for the external imaging libraries (PIL, imagehash, numpy):
decoding bytes, producing resized bytes, perceptual fingerprints and the
red-overlay diff bytes.  `Except` results model the exceptions the
library may raise (unreadable file, etc.). -/
structure ImgOracle where
  openImg : Str → Except Str Img
  resizedBytes : Str → Nat → Nat → Str
  phash : Str → Except Str (List Bool)
  diffBytes : Str → Str → Str

/-- `ScreenshotManager.HASH_DISTANCE_THRESHOLD`. -/
def HASH_DISTANCE_THRESHOLD : Nat := 5

/-- `ScreenshotManager.resize_screenshot`: open the image at
`imagePath`, refuse (returning `False`) when the reported width is zero
or the image is unreadable, otherwise save it back rescaled to `width`
with the aspect kept.  (`int(width * img.height / img.width)` is
evaluated in floating point by Python; the exact quotient is used here —
no claim depends on the rounded value.) -/
def resize_screenshot (oracle : ImgOracle) (fs : FS) (imagePath : Str) (width : Nat) :
    Bool × FS :=
  match fsLookup fs imagePath with
  | none => (false, fs)
  | some bytes =>
    match oracle.openImg bytes with
    | Except.error _ => (false, fs)
    | Except.ok img =>
      if img.width == 0 then (false, fs)
      else
        let newHeight := width * img.height / img.width
        (true, fsWrite fs imagePath (oracle.resizedBytes bytes width newHeight))

/-- Hamming distance between two perceptual fingerprints
(`hash1 - hash2` in imagehash). -/
def hammingDistance (a b : List Bool) : Nat :=
  ((a.zip b).filter (fun p => p.1 != p.2)).length

/-- `ScreenshotManager.compare_screenshots`: perceptual-hash distance of
the two stored images (`none` when either file cannot be read or hashed —
the internal `except` swallows the failure), writing the diff overlay to
`diffOutputPath` when that path is truthy and the distance is above the
threshold. -/
def compare_screenshots (oracle : ImgOracle) (fs : FS) (img1Path img2Path : Str)
    (diffOutputPath : Option Str) : Option Nat × FS :=
  match fsLookup fs img1Path, fsLookup fs img2Path with
  | some b1, some b2 =>
    match oracle.phash b1, oracle.phash b2 with
    | Except.ok h1, Except.ok h2 =>
      let d := hammingDistance h1 h2
      match diffOutputPath with
      | some dp =>
        if !dp.isEmpty && HASH_DISTANCE_THRESHOLD < d then
          (some d, fsWrite fs dp (oracle.diffBytes b1 b2))
        else (some d, fs)
      | none => (some d, fs)
    | _, _ => (none, fs)
  | _, _ => (none, fs)

/-! ## The per-domain pipeline of `SiteChecker._fetch_page` -/

/-- A value stored under a result key (`code` holds either the integer
HTTP status or a string such as `"skipped"` or an error description). -/
inductive PyVal where
  | int (n : Int)
  | str (s : Str)
deriving DecidableEq

/-- One structured result record per (host, user, domain) per run. -/
structure CheckResult where
  code : Option PyVal := none
  location : Option Str := none
  digest : Option Str := none
  txt_status : Option Str := none
  txt_previous_run : Option Str := none
  screenshot_hash_distance : Option Nat := none
  screenshot_status : Option Str := none
  screenshot_previous_run : Option Str := none
deriving DecidableEq

/-- The external world one `_fetch_page` call observes for its domain:
the Selenium capture (which may raise), the resolved URL, the
status-probing script (its failure falls back to 200), the rendered body
text (may raise), hashlib, and the imaging libraries. -/
structure Env where
  captureScreenshot : Except Str Str
  currentUrl : Str
  statusScript : Except Str Int
  pageText : Except Str Str
  sha256hex : Str → Str
  img : ImgOracle

/-- The text artifact written for a capture: resolved URL line, status
code line, then the page text, each newline-terminated. -/
def htmlFileContent (location : Str) (status : Int) (pageText : Str) : Str :=
  location ++ nl ++ intRepr status ++ nl ++ pageText ++ nl

/-- The text-comparison block of `_fetch_page` (find the previous text
artifact, compare whole files byte for byte, delete the new file when
identical): returns `(txt_status, txt_previous_date_serial, fs)`.
When either file cannot be read the inner `except` leaves both fields
unset. -/
def txtCompareStage (outputDir user domain directory html_file : Str) (fs : FS) :
    Option Str × Option Str × FS :=
  match find_previous_txt_file outputDir user domain directory fs with
  | none => (none, none, fs)
  | some prev =>
    match fsLookup fs html_file, fsLookup fs prev with
    | some cur, some prevContent =>
      if cur == prevContent then
        (some "deleted_duplicate".data, extractRunPart prev, fsRemove fs html_file)
      else
        (some "different".data, extractRunPart prev, fs)
    | _, _ => (none, none, fs)

/-- The screenshot-comparison block of `_fetch_page` (find the previous
screenshot, compare by perceptual hash writing a diff overlay for large
distances, delete the new screenshot and any diff when the distance is
at or below the threshold): returns
`(hash_distance, screenshot_status, screenshot_previous_date_serial, fs)`. -/
def screenshotCompareStage (oracle : ImgOracle) (outputDir domain directory png_file : Str)
    (fs : FS) : Option Nat × Option Str × Option Str × FS :=
  match find_previous_screenshot outputDir domain directory fs with
  | none => (none, none, none, fs)
  | some prev =>
    let diff_file := strReplace png_file ".png".data "-diff.png".data
    match compare_screenshots oracle fs png_file prev (some diff_file) with
    | (none, fs1) => (none, none, none, fs1)
    | (some d, fs1) =>
      let sp := extractRunPart prev
      if d ≤ HASH_DISTANCE_THRESHOLD then
        let fs2 := fsRemove fs1 png_file
        let fs3 := if fsExists fs2 diff_file then fsRemove fs2 diff_file else fs2
        (some d, some "deleted_identical".data, sp, fs3)
      else
        (some d, some "different".data, sp, fs1)

/-- The result assembly at the end of `_fetch_page`: location, status
code and digest always; the comparison fields only when truthy; the raw
hash distance only when the comparison succeeded and the screenshot was
not deleted as identical. -/
def buildResult (location : Str) (code : Int) (digest : Str)
    (txt_status txt_prev : Option Str) (hash_distance : Option Nat)
    (ss_status ss_prev : Option Str) : CheckResult :=
  { location := some location
    code := some (PyVal.int code)
    digest := some digest
    txt_status := if pyTruthy txt_status then txt_status else none
    txt_previous_run := if pyTruthy txt_prev then txt_prev else none
    screenshot_hash_distance :=
      if hash_distance.isSome && !(ss_status == some "deleted_identical".data) then
        hash_distance
      else none
    screenshot_status := if pyTruthy ss_status then ss_status else none
    screenshot_previous_run := if pyTruthy ss_prev then ss_prev else none }

/-- `SiteChecker._fetch_page`: capture, store, normalize, resolve
lineage, compare, apply retention, emit one result.  Skips entirely when
both artifacts already exist for this run; any exception raised by the
capture or the body-text read is caught and becomes the result code. -/
def fetch_page (env : Env) (outputDir user domain directory : Str) (fs : FS) :
    CheckResult × FS :=
  let html_file := pathJoin directory (user ++ "-".data ++ domain ++ ".txt".data)
  let png_file := pathJoin directory (user ++ "-".data ++ domain ++ ".png".data)
  if fsExists fs html_file && fsExists fs png_file then
    ({ code := some (PyVal.str "skipped".data) }, fs)
  else
    match env.captureScreenshot with
    | Except.error e => ({ code := some (PyVal.str e) }, fs)
    | Except.ok shot =>
      let fs1 := fsWrite fs png_file shot
      let location := env.currentUrl
      let status := match env.statusScript with
        | Except.ok n => n
        | Except.error _ => 200
      match env.pageText with
      | Except.error e => ({ code := some (PyVal.str e) }, fs1)
      | Except.ok pageText =>
        let fs2 := fsWrite fs1 html_file (htmlFileContent location status pageText)
        let fs3 := (resize_screenshot env.img fs2 png_file 500).2
        let (ts, tp, fs4) := txtCompareStage outputDir user domain directory html_file fs3
        let (hd, ss, sp, fs5) :=
          screenshotCompareStage env.img outputDir domain directory png_file fs4
        (buildResult location status (env.sha256hex pageText) ts tp hd ss sp, fs5)

/-- The domain loop of `check_accounts`: one `_fetch_page` call per
domain, threading the filesystem, collecting one result per domain. -/
def processDomains (envOf : Str → Env) (outputDir user directory : Str) :
    List Str → FS → List CheckResult × FS
  | [], fs => ([], fs)
  | d :: rest, fs =>
    let rfs := fetch_page (envOf d) outputDir user d directory fs
    let rsfs := processDomains envOf outputDir user directory rest rfs.2
    (rfs.1 :: rsfs.1, rsfs.2)

/-! ## Redirect-limited fetching (`WebFetcher.fetch_url` and the
`too_many_redirects` guard of the legacy `fetch_page`) -/

/-- What `requests.get(url, allow_redirects=False)` produces for a given
URL: a response with status and optional `Location` header, a socket
error, or any other exception. -/
inductive ReqOutcome where
  | ok (status : Int) (locationHeader : Option Str)
  | sockErr
  | exn (msg : Str)

/-- The second component of the pair `fetch_url` returns: the literal
`0` when the redirect limit was exhausted, a real response, or one of
the two mock responses built in the `except` branches. -/
inductive RespVal where
  | limitZero
  | resp (status : Int)
  | mock521
  | mockExn (msg : Str)
deriving DecidableEq

/-- The network as `fetch_url` sees it, plus `urllib.parse.urljoin`. -/
structure FetchEnv where
  get : Str → ReqOutcome
  urljoin : Str → Str → Str

/-- Is the status one of the redirect codes `[301, 302, 303, 307, 308]`? -/
def isRedirectCode (st : Int) : Bool :=
  st == 301 || st == 302 || st == 303 || st == 307 || st == 308

/-- `WebFetcher.fetch_url` (identical in the legacy `site-checker.py`):
manual redirect following, decrementing `limit` per hop, returning
`(url, 0)` when the limit reaches zero; transport errors are converted
to mock responses rather than raised. -/
def fetch_url (env : FetchEnv) : Nat → Str → Str × RespVal
  | 0, url => (url, RespVal.limitZero)
  | n + 1, url =>
    match env.get url with
    | ReqOutcome.ok st loc =>
      if isRedirectCode st then
        match loc with
        | some l => fetch_url env n (env.urljoin url l)
        | none => (url, RespVal.resp st)
      else (url, RespVal.resp st)
    | ReqOutcome.sockErr => (url, RespVal.mock521)
    | ReqOutcome.exn m => (url, RespVal.mockExn m)

/-- The number of redirect hops `fetch_url` actually follows (one per
recursive call). -/
def fetch_url_hops (env : FetchEnv) : Nat → Str → Nat
  | 0, _ => 0
  | n + 1, url =>
    match env.get url with
    | ReqOutcome.ok st loc =>
      if isRedirectCode st then
        match loc with
        | some l => 1 + fetch_url_hops env n (env.urljoin url l)
        | none => 0
      else 0
    | _ => 0

/-- The redirect chain starting at `url` offers at least `k` further
redirect hops (every fetched response redirects with a location). -/
def redirectsAtLeast (env : FetchEnv) : Nat → Str → Prop
  | 0, _ => True
  | k + 1, url =>
    match env.get url with
    | ReqOutcome.ok st (some l) =>
      isRedirectCode st = true ∧ redirectsAtLeast env k (env.urljoin url l)
    | _ => False

/-- The guard at the top of the legacy `fetch_page`
(`if response == 0: return {"location": location, "code": "too_many_redirects"}`):
the early-returned result when the limit was exhausted, `none` otherwise. -/
def fetch_page_redirect_guard (locResp : Str × RespVal) : Option CheckResult :=
  match locResp with
  | (location, RespVal.limitZero) =>
    some { location := some location, code := some (PyVal.str "too_many_redirects".data) }
  | _ => none

/-! ## Concrete oracle and store instances used to exercise the theorems -/

/-- A concrete imaging oracle: every image decodes 500×800, resizing
keeps bytes, the perceptual fingerprint is a constant (so byte-identical
inputs hash at distance zero). -/
def plainImgOracle : ImgOracle where
  openImg := fun _ => Except.ok { width := 500, height := 800 }
  resizedBytes := fun b _ _ => b
  phash := fun _ => Except.ok []
  diffBytes := fun b _ => b

/-- A concrete imaging oracle whose decoder reports width zero. -/
def zeroWidthImgOracle : ImgOracle where
  openImg := fun _ => Except.ok { width := 0, height := 300 }
  resizedBytes := fun b _ _ => b
  phash := fun _ => Except.ok []
  diffBytes := fun b _ => b

/-- A concrete environment with the given capture, URL, status and body
outcomes, the identity digest and the plain imaging oracle. -/
def mkEnv (capture : Except Str Str) (url : Str) (status : Except Str Int)
    (text : Except Str Str) : Env where
  captureScreenshot := capture
  currentUrl := url
  statusScript := status
  pageText := text
  sha256hex := fun s => s
  img := plainImgOracle

/-- A network on which every URL answers 301 with a location header. -/
def alwaysRedirectEnv : FetchEnv where
  get := fun _ => ReqOutcome.ok 301 (some "L".data)
  urljoin := fun _ l => l

/-- A store holding one prior run of domain `d`: a text artifact and a
screenshot under run `2025010101`. -/
def dupStore : FS :=
  [("o/2025010101/h/u-d.txt".data, "P".data),
   ("o/2025010101/h/u-d.png".data, "B".data)]

/-- An environment whose capture produces bytes identical to the stored
predecessor screenshot. -/
def dupEnv : Env :=
  mkEnv (Except.ok "B".data) "https://d".data (Except.ok 200) (Except.ok "T".data)

/-! ## Lemmas about the lexicographic key order -/

theorem strLt_irrefl (a : Str) : strLt a a = false := by
  induction a with
  | nil => rfl
  | cons c cs ih =>
    simp only [strLt, ih, Bool.and_false, Bool.or_false, decide_eq_false_iff_not]
    omega

theorem strLt_asymm {a b : Str} (h : strLt a b = true) : strLt b a = false := by
  induction a generalizing b with
  | nil =>
    cases b with
    | nil => simp [strLt] at h
    | cons x xs => simp [strLt]
  | cons c cs ih =>
    cases b with
    | nil => simp [strLt] at h
    | cons x xs =>
      simp only [strLt, Bool.or_eq_true, decide_eq_true_eq, Bool.and_eq_true,
        beq_iff_eq] at h
      simp only [strLt, Bool.or_eq_false_iff, decide_eq_false_iff_not,
        Bool.and_eq_false_iff]
      rcases h with h | ⟨he, hr⟩
      · exact ⟨by omega, Or.inl (by simp; omega)⟩
      · exact ⟨by omega, Or.inr (ih hr)⟩

/-- From `a < c` and `¬(a < b)` conclude `b < c` (the ordering is a
total preorder, so anything not above `a` stays below `c`). -/
theorem strLt_of_lt_of_not_lt :
    ∀ {a b c : Str}, strLt a c = true → strLt a b = false → strLt b c = true := by
  intro a
  induction a with
  | nil =>
    intro b c hac hab
    cases b with
    | nil =>
      cases c with
      | nil => simp [strLt] at hac
      | cons y ys => simp [strLt]
    | cons x xs => simp [strLt] at hab
  | cons a as ih =>
    intro b c hac hab
    cases c with
    | nil => simp [strLt] at hac
    | cons y ys =>
      cases b with
      | nil => simp [strLt]
      | cons x xs =>
        simp only [strLt, Bool.or_eq_true, decide_eq_true_eq, Bool.and_eq_true,
          beq_iff_eq] at hac ⊢
        simp only [strLt, Bool.or_eq_false_iff, decide_eq_false_iff_not,
          Bool.and_eq_false_iff] at hab
        obtain ⟨hab1, hab2⟩ := hab
        rcases hac with hlt | ⟨heq, hr⟩
        · left; omega
        · by_cases hxy : x.toNat < y.toNat
          · left; exact hxy
          · right
            have hxe : x.toNat = y.toNat := by omega
            refine ⟨hxe, ?_⟩
            rcases hab2 with h2 | h2
            · simp at h2; omega
            · exact ih hr h2

/-- `byRunDesc` is total: of any two candidates one may precede the other. -/
theorem byRunDesc_total (f g : Str) : (byRunDesc f g || byRunDesc g f) = true := by
  simp only [byRunDesc, Bool.or_eq_true, Bool.not_eq_true']
  cases h : strLt (extract_date f) (extract_date g) with
  | false => exact Or.inl rfl
  | true => exact Or.inr (strLt_asymm h)

/-- `byRunDesc` is transitive. -/
theorem byRunDesc_trans {f g h : Str} (h1 : byRunDesc f g = true)
    (h2 : byRunDesc g h = true) : byRunDesc f h = true := by
  simp only [byRunDesc, Bool.not_eq_true'] at h1 h2 ⊢
  cases hfh : strLt (extract_date f) (extract_date h) with
  | false => rfl
  | true => exact absurd (strLt_of_lt_of_not_lt hfh h1) (by simp [h2])

/-! ## Lemmas about the stable descending sort -/

theorem mem_insertByDesc {le : Str → Str → Bool} {x a : Str} :
    ∀ {l : List Str}, a ∈ insertByDesc le x l ↔ a = x ∨ a ∈ l := by
  intro l
  induction l with
  | nil => simp [insertByDesc]
  | cons y ys ih =>
    simp only [insertByDesc]
    split
    · simp [or_comm, or_assoc, or_left_comm]
    · simp [ih]
      tauto

theorem mem_sortByDesc {le : Str → Str → Bool} {a : Str} :
    ∀ {l : List Str}, a ∈ sortByDesc le l ↔ a ∈ l := by
  intro l
  induction l with
  | nil => simp [sortByDesc]
  | cons x xs ih => simp [sortByDesc, mem_insertByDesc, ih]

theorem pairwise_insertByDesc {le : Str → Str → Bool}
    (htot : ∀ a b, (le a b || le b a) = true)
    (htrans : ∀ {a b c}, le a b = true → le b c = true → le a c = true)
    {x : Str} :
    ∀ {l : List Str}, l.Pairwise (fun a b => le a b = true) →
      (insertByDesc le x l).Pairwise (fun a b => le a b = true) := by
  intro l
  induction l with
  | nil => simp [insertByDesc]
  | cons y ys ih =>
    intro hp
    rw [List.pairwise_cons] at hp
    obtain ⟨hy, hys⟩ := hp
    simp only [insertByDesc]
    split
    · rename_i hxy
      rw [List.pairwise_cons]
      refine ⟨?_, List.pairwise_cons.mpr ⟨hy, hys⟩⟩
      intro b hb
      rcases List.mem_cons.mp hb with rfl | hb
      · exact hxy
      · exact htrans hxy (hy _ hb)
    · rename_i hxy
      have hyx : le y x = true := by
        have := htot x y
        simp [Bool.or_eq_true] at this
        tauto
      rw [List.pairwise_cons]
      refine ⟨?_, ih hys⟩
      intro b hb
      rw [mem_insertByDesc] at hb
      rcases hb with rfl | hb
      · exact hyx
      · exact hy _ hb

theorem pairwise_sortByDesc {le : Str → Str → Bool}
    (htot : ∀ a b, (le a b || le b a) = true)
    (htrans : ∀ {a b c}, le a b = true → le b c = true → le a c = true) :
    ∀ (l : List Str), (sortByDesc le l).Pairwise (fun a b => le a b = true) := by
  intro l
  induction l with
  | nil => simp [sortByDesc]
  | cons x xs ih => exact pairwise_insertByDesc htot (fun h1 h2 => htrans h1 h2) ih

/-- The head of the descending sort is a maximal element. -/
theorem sortByDesc_head_max {le : Str → Str → Bool}
    (htot : ∀ a b, (le a b || le b a) = true)
    (htrans : ∀ {a b c}, le a b = true → le b c = true → le a c = true)
    {l : List Str} {f : Str} (h : (sortByDesc le l).head? = some f) :
    f ∈ l ∧ ∀ g ∈ l, le f g = true := by
  have hpw := pairwise_sortByDesc htot (fun h1 h2 => htrans h1 h2) l
  cases hs : sortByDesc le l with
  | nil => rw [hs] at h; simp at h
  | cons a t =>
    rw [hs] at h hpw
    simp only [List.head?_cons, Option.some.injEq] at h
    rw [List.pairwise_cons] at hpw
    have hfa : f = a := h.symm
    constructor
    · rw [hfa]; exact mem_sortByDesc.mp (hs ▸ List.mem_cons_self a t)
    · intro g hg
      have hgmem : g ∈ sortByDesc le l := mem_sortByDesc.mpr hg
      rw [hs] at hgmem
      rcases List.mem_cons.mp hgmem with rfl | hgt
      · rw [hfa]
        have := htot g g
        simpa using this
      · rw [hfa]; exact hpw.1 _ hgt

theorem sortByDesc_eq_nil_iff {le : Str → Str → Bool} :
    ∀ {l : List Str}, sortByDesc le l = [] ↔ l = [] := by
  intro l
  cases l with
  | nil => simp [sortByDesc]
  | cons x xs =>
    simp only [sortByDesc]
    constructor
    · intro h
      have : x ∈ insertByDesc le x (sortByDesc le xs) := mem_insertByDesc.mpr (Or.inl rfl)
      rw [h] at this
      cases this
    · intro h; cases h

/-! ## Properties of the predecessor search -/

/-- Any text predecessor the search returns is a candidate, and its date
key is maximal among the candidates. -/
theorem find_prev_txt_some {outputDir user domain cur : Str} {fs : FS} {f : Str}
    (h : find_previous_txt_file outputDir user domain cur fs = some f) :
    f ∈ txt_candidates outputDir user domain cur fs ∧
      ∀ g ∈ txt_candidates outputDir user domain cur fs, byRunDesc f g = true := by
  unfold find_previous_txt_file at h
  by_cases he : (txt_candidates outputDir user domain cur fs).isEmpty = true
  · simp [he] at h
  · simp only [he, Bool.false_eq_true, if_false] at h
    exact sortByDesc_head_max byRunDesc_total (fun h1 h2 => byRunDesc_trans h1 h2) h

/-- Any screenshot predecessor the search returns is a candidate, and
its date key is maximal among the candidates. -/
theorem find_prev_png_some {outputDir domain cur : Str} {fs : FS} {f : Str}
    (h : find_previous_screenshot outputDir domain cur fs = some f) :
    f ∈ screenshot_candidates outputDir domain cur fs ∧
      ∀ g ∈ screenshot_candidates outputDir domain cur fs, byRunDesc f g = true := by
  unfold find_previous_screenshot at h
  by_cases he : (screenshot_candidates outputDir domain cur fs).isEmpty = true
  · simp [he] at h
  · simp only [he, Bool.false_eq_true, if_false] at h
    exact sortByDesc_head_max byRunDesc_total (fun h1 h2 => byRunDesc_trans h1 h2) h

/-- A string followed by a nonempty extension sorts strictly above the
bare string: the ten-character date+serial identifier sorts above the
eight-character legacy bare-date identifier by plain string value. -/
theorem strLt_append_right (d : Str) {ext : Str} (h : ext ≠ []) :
    strLt d (d ++ ext) = true := by
  induction d with
  | nil =>
    cases ext with
    | nil => exact absurd rfl h
    | cons e es => simp [strLt]
  | cons c cs ih => simp [strLt, ih, Nat.lt_irrefl]

/-- C1: for every set of stored artifacts — in particular any set
containing an artifact under the current run directory — neither
`_find_previous_txt_file` nor `find_previous_screenshot` ever returns an
artifact located under the current run directory (every returned path
fails the `startswith(current_directory)` test, so it does not extend
the current run directory). -/
theorem lineage_never_returns_current_run
    (outputDir user domain currentDirectory : Str) (fs : FS) (f : Str) :
    (find_previous_txt_file outputDir user domain currentDirectory fs = some f →
      ¬ currentDirectory <+: f)
    ∧ (find_previous_screenshot outputDir domain currentDirectory fs = some f →
      ¬ currentDirectory <+: f) := by
  constructor
  · intro h
    obtain ⟨hmem, -⟩ := find_prev_txt_some h
    unfold txt_candidates at hmem
    rw [List.mem_filter] at hmem
    have hpref := hmem.2
    simp only [Bool.not_eq_true'] at hpref
    rw [← List.isPrefixOf_iff_prefix]
    simp [hpref]
  · intro h
    obtain ⟨hmem, -⟩ := find_prev_png_some h
    unfold screenshot_candidates at hmem
    rw [List.mem_filter] at hmem
    have hpref := hmem.2
    simp only [Bool.not_eq_true'] at hpref
    rw [← List.isPrefixOf_iff_prefix]
    simp [hpref]

/-- Witness for C1 at a concrete store: the store holds an artifact of
the current run (under `o/2025010201`) and one prior artifact; the
search returns the prior one, which the theorem shows is not under the
current run directory. -/
theorem lineage_never_returns_current_run_witness :
    find_previous_txt_file "o".data "u".data "d".data "o/2025010201".data
        [("o/2025010101/h/u-d.txt".data, "B".data),
         ("o/2025010201/h/u-d.txt".data, "C".data)]
      = some "o/2025010101/h/u-d.txt".data
    ∧ ¬ ("o/2025010201".data <+: "o/2025010101/h/u-d.txt".data) :=
  ⟨by decide,
   (lineage_never_returns_current_run "o".data "u".data "d".data "o/2025010201".data
        [("o/2025010101/h/u-d.txt".data, "B".data),
         ("o/2025010201/h/u-d.txt".data, "C".data)]
        "o/2025010101/h/u-d.txt".data).1 (by decide)⟩

/-- C4: for every non-empty candidate set the predecessor search returns
some candidate whose extracted run identifier is maximal in the string
order (nothing sorts strictly above it, and the ten-character date+serial
form sorts above the eight-character legacy form because a nonempty
extension raises the string value); an empty candidate set yields `none`
and never an error. -/
theorem lineage_orders_candidates_descending
    (outputDir user domain currentDirectory : Str) (fs : FS) :
    (txt_candidates outputDir user domain currentDirectory fs = [] →
      find_previous_txt_file outputDir user domain currentDirectory fs = none)
    ∧ (txt_candidates outputDir user domain currentDirectory fs ≠ [] →
      ∃ f, find_previous_txt_file outputDir user domain currentDirectory fs = some f)
    ∧ (∀ f, find_previous_txt_file outputDir user domain currentDirectory fs = some f →
        f ∈ txt_candidates outputDir user domain currentDirectory fs ∧
        ∀ g ∈ txt_candidates outputDir user domain currentDirectory fs,
          strLt (extract_date f) (extract_date g) = false)
    ∧ (screenshot_candidates outputDir domain currentDirectory fs = [] →
      find_previous_screenshot outputDir domain currentDirectory fs = none)
    ∧ (screenshot_candidates outputDir domain currentDirectory fs ≠ [] →
      ∃ f, find_previous_screenshot outputDir domain currentDirectory fs = some f)
    ∧ (∀ f, find_previous_screenshot outputDir domain currentDirectory fs = some f →
        f ∈ screenshot_candidates outputDir domain currentDirectory fs ∧
        ∀ g ∈ screenshot_candidates outputDir domain currentDirectory fs,
          strLt (extract_date f) (extract_date g) = false)
    ∧ (∀ datePart serialPart : Str, serialPart ≠ [] →
        strLt datePart (datePart ++ serialPart) = true) := by
  refine ⟨?_, ?_, ?_, ?_, ?_, ?_, ?_⟩
  · intro hc
    unfold find_previous_txt_file
    simp [hc]
  · intro hne
    unfold find_previous_txt_file
    have he : (txt_candidates outputDir user domain currentDirectory fs).isEmpty = false := by
      cases hc : txt_candidates outputDir user domain currentDirectory fs with
      | nil => exact absurd hc hne
      | cons a t => rfl
    simp only [he, Bool.false_eq_true, if_false]
    cases hs : sortByDesc byRunDesc (txt_candidates outputDir user domain currentDirectory fs) with
    | nil => rw [sortByDesc_eq_nil_iff] at hs; exact absurd hs hne
    | cons x xs => exact ⟨x, rfl⟩
  · intro f h
    obtain ⟨hmem, hmax⟩ := find_prev_txt_some h
    refine ⟨hmem, fun g hg => ?_⟩
    have := hmax g hg
    simpa [byRunDesc, Bool.not_eq_true'] using this
  · intro hc
    unfold find_previous_screenshot
    simp [hc]
  · intro hne
    unfold find_previous_screenshot
    have he : (screenshot_candidates outputDir domain currentDirectory fs).isEmpty = false := by
      cases hc : screenshot_candidates outputDir domain currentDirectory fs with
      | nil => exact absurd hc hne
      | cons a t => rfl
    simp only [he, Bool.false_eq_true, if_false]
    cases hs : sortByDesc byRunDesc (screenshot_candidates outputDir domain currentDirectory fs) with
    | nil => rw [sortByDesc_eq_nil_iff] at hs; exact absurd hs hne
    | cons x xs => exact ⟨x, rfl⟩
  · intro f h
    obtain ⟨hmem, hmax⟩ := find_prev_png_some h
    refine ⟨hmem, fun g hg => ?_⟩
    have := hmax g hg
    simpa [byRunDesc, Bool.not_eq_true'] using this
  · intro datePart serialPart hne
    exact strLt_append_right datePart hne

/-- Witness for C4: with a legacy bare-date candidate and a date+serial
candidate present, the search returns the date+serial one (its key is
maximal), and an empty store yields `none`. -/
theorem lineage_orders_candidates_descending_witness :
    (("o/2025010101/h/u-d.txt".data ∈
        txt_candidates "o".data "u".data "d".data "o/2025010201".data
          [("o/20250101/h/u-d.txt".data, "A".data),
           ("o/2025010101/h/u-d.txt".data, "B".data),
           ("o/2025010201/h/u-d.txt".data, "C".data)])
      ∧ ∀ g ∈ txt_candidates "o".data "u".data "d".data "o/2025010201".data
          [("o/20250101/h/u-d.txt".data, "A".data),
           ("o/2025010101/h/u-d.txt".data, "B".data),
           ("o/2025010201/h/u-d.txt".data, "C".data)],
          strLt (extract_date "o/2025010101/h/u-d.txt".data) (extract_date g) = false)
    ∧ find_previous_txt_file "o".data "u".data "d".data "o/2025010201".data [] = none :=
  ⟨(lineage_orders_candidates_descending "o".data "u".data "d".data "o/2025010201".data
        [("o/20250101/h/u-d.txt".data, "A".data),
         ("o/2025010101/h/u-d.txt".data, "B".data),
         ("o/2025010201/h/u-d.txt".data, "C".data)]).2.2.1
      "o/2025010101/h/u-d.txt".data (by decide),
   (lineage_orders_candidates_descending "o".data "u".data "d".data "o/2025010201".data
        []).1 (by decide)⟩

/-! ## Properties of run-identifier allocation -/

/-- Parsing the two-digit serial suffix recovers the serial. -/
theorem pyInt_serial2 : ∀ s : Nat, s < 100 → pyInt (serial2 s) = some (Int.ofNat s) := by
  decide

/-- Formatting a serial below 100 with `f"{n:02d}"` gives its two-digit
zero-padded form. -/
theorem intFormat02_serial2 : ∀ s : Nat, s < 100 → intFormat02 (Int.ofNat s) = serial2 s := by
  decide

/-- The scan of `_get_next_date_serial` over well-formed `today ++ nn`
entries computes the maximum serial. -/
theorem fold_maxSerial (today : Str) (htoday : today.length = 8) :
    ∀ (serials : List Nat) (acc : Nat), (∀ s ∈ serials, s ≤ 99) →
      (serials.map (fun s => today ++ serial2 s)).foldl
        (fun m d =>
          if d.length == 10 then
            match pyInt (d.drop 8) with
            | some s => max m s
            | none => m
          else m) ((acc : Nat) : Int)
      = ((serials.foldl max acc : Nat) : Int) := by
  intro serials
  induction serials with
  | nil => intro acc _; rfl
  | cons s ss ih =>
    intro acc hser
    have hs : s < 100 := Nat.lt_succ_of_le (hser s (List.mem_cons_self s ss))
    have hlen : ((today ++ serial2 s).length == 10) = true := by
      simp [List.length_append, htoday, serial2]
    have hdrop : (today ++ serial2 s).drop 8 = serial2 s := by
      have := List.drop_left today (serial2 s)
      rwa [htoday] at this
    have hstep := ih (max acc s) (fun t ht => hser t (List.mem_cons_of_mem s ht))
    simp only [List.map_cons, List.foldl_cons, hlen, hdrop, pyInt_serial2 s hs,
      if_true, eq_self_iff_true]
    have hmax : (max ((acc : Nat) : Int) (Int.ofNat s)) = ((max acc s : Nat) : Int) := by
      rw [Nat.cast_max]
      rfl
    rw [hmax]
    exact hstep

/-- C2: for every set of well-formed run identifiers for today
(`today ++ two-digit serial`, serials at most 99), allocation returns
today followed by the maximum existing serial plus one, zero-padded to
two digits; and when the maximum serial is already 99 it raises the
fatal quota error instead. -/
theorem run_allocator_serial (today : Str) (serials : List Nat)
    (htoday : today.length = 8) (hser : ∀ s ∈ serials, s ≤ 99) :
    (serials.foldl max 0 < 99 →
      get_next_date_serial today (serials.map (fun s => today ++ serial2 s))
        = Except.ok (today ++ serial2 (serials.foldl max 0 + 1)))
    ∧ (serials.foldl max 0 = 99 →
      ∃ msg, get_next_date_serial today (serials.map (fun s => today ++ serial2 s))
        = Except.error msg) := by
  have hfilter :
      (serials.map (fun s => today ++ serial2 s)).filter (fun e => today.isPrefixOf e)
        = serials.map (fun s => today ++ serial2 s) := by
    rw [List.filter_eq_self]
    intro e he
    rw [List.mem_map] at he
    obtain ⟨s, -, rfl⟩ := he
    rw [List.isPrefixOf_iff_prefix]
    exact List.prefix_append today (serial2 s)
  have hfold := fold_maxSerial today htoday serials 0 hser
  constructor
  · intro hlt
    simp only [get_next_date_serial, hfilter]
    rw [show ((0 : Nat) : Int) = (0 : Int) from rfl] at hfold
    rw [hfold, if_neg (by omega)]
    have : ((serials.foldl max 0 : Nat) : Int) + 1 = Int.ofNat (serials.foldl max 0 + 1) := by
      rw [Int.ofNat_eq_natCast]
      omega
    rw [this, intFormat02_serial2 (serials.foldl max 0 + 1) (by omega)]
  · intro heq
    simp only [get_next_date_serial, hfilter]
    rw [show ((0 : Nat) : Int) = (0 : Int) from rfl] at hfold
    rw [hfold, heq, if_pos (by norm_num)]
    exact ⟨_, rfl⟩

/-- Witness for C2: existing runs `2025010101` and `2025010102` yield
`2025010103`; an existing run `2025010199` makes allocation raise. -/
theorem run_allocator_serial_witness :
    get_next_date_serial "20250101".data ["2025010101".data, "2025010102".data]
      = Except.ok "2025010103".data
    ∧ ∃ msg, get_next_date_serial "20250101".data ["2025010199".data]
      = Except.error msg := by
  constructor
  · have h := (run_allocator_serial "20250101".data [1, 2] (by decide) (by decide)).1
      (by decide)
    exact h
  · have h := (run_allocator_serial "20250101".data [99] (by decide) (by decide)).2
      (by decide)
    exact h

/-! ## Idempotent skip (C5) -/

/-- C5: when both the text and the image artifact already exist for this
run, `_fetch_page` short-circuits to the `skipped` result and returns
the filesystem unchanged — nothing is captured, written or deleted. -/
theorem fetch_page_skips_when_both_exist (env : Env)
    (outputDir user domain directory : Str) (fs : FS)
    (hh : fsExists fs (pathJoin directory (user ++ "-".data ++ domain ++ ".txt".data)) = true)
    (hp : fsExists fs (pathJoin directory (user ++ "-".data ++ domain ++ ".png".data)) = true) :
    fetch_page env outputDir user domain directory fs
      = ({ code := some (PyVal.str "skipped".data) }, fs) := by
  simp only [fetch_page]
  rw [hh, hp]
  simp

/-- Witness for C5 at a concrete store holding both artifacts. -/
theorem fetch_page_skips_when_both_exist_witness :
    fetch_page (mkEnv (Except.ok "S".data) "u1".data (Except.ok 200) (Except.ok "T".data))
        "o".data "u".data "d".data "o/2025010101/h".data
        [("o/2025010101/h/u-d.txt".data, "A".data),
         ("o/2025010101/h/u-d.png".data, "B".data)]
      = ({ code := some (PyVal.str "skipped".data) },
         [("o/2025010101/h/u-d.txt".data, "A".data),
          ("o/2025010101/h/u-d.png".data, "B".data)]) :=
  fetch_page_skips_when_both_exist _ _ _ _ _ _ (by decide) (by decide)

/-! ## Per-domain error containment (C6) -/

/-- C6: an exception raised during capture, or during the body-text
read, is caught inside `_fetch_page`; the domain still yields exactly
one terminal result whose `code` field is the error description (with
the filesystem as it stood at the failure), and the domain loop of
`check_accounts` always yields exactly one result per domain, so one
domain failing never aborts the remaining domains. -/
theorem fetch_page_contains_errors (outputDir user domain directory : Str) :
    (∀ (env : Env) (fs : FS) (e : Str),
      env.captureScreenshot = Except.error e →
      (fsExists fs (pathJoin directory (user ++ "-".data ++ domain ++ ".txt".data)) &&
        fsExists fs (pathJoin directory (user ++ "-".data ++ domain ++ ".png".data))) = false →
      fetch_page env outputDir user domain directory fs
        = ({ code := some (PyVal.str e) }, fs))
    ∧ (∀ (env : Env) (fs : FS) (shot e : Str),
      env.captureScreenshot = Except.ok shot →
      env.pageText = Except.error e →
      (fsExists fs (pathJoin directory (user ++ "-".data ++ domain ++ ".txt".data)) &&
        fsExists fs (pathJoin directory (user ++ "-".data ++ domain ++ ".png".data))) = false →
      fetch_page env outputDir user domain directory fs
        = ({ code := some (PyVal.str e) },
          fsWrite fs (pathJoin directory (user ++ "-".data ++ domain ++ ".png".data)) shot))
    ∧ (∀ (envOf : Str → Env) (doms : List Str) (fs : FS),
      (processDomains envOf outputDir user directory doms fs).1.length = doms.length) := by
  refine ⟨?_, ?_, ?_⟩
  · intro env fs e hcap hex
    simp only [fetch_page]
    rw [hex, hcap]
    simp
  · intro env fs shot e hcap htext hex
    simp only [fetch_page]
    rw [hex, hcap, htext]
    simp
  · intro envOf doms
    induction doms with
    | nil => intro fs; rfl
    | cons d rest ih =>
      intro fs
      simp [processDomains, ih]

/-- Witness for C6: a capture failure becomes the result code, and a
two-domain run still yields two results. -/
theorem fetch_page_contains_errors_witness :
    fetch_page (mkEnv (Except.error "boom".data) "u1".data (Except.ok 200) (Except.ok "T".data))
        "o".data "u".data "d".data "o/2025010101/h".data []
      = ({ code := some (PyVal.str "boom".data) }, [])
    ∧ (processDomains
        (fun _ => mkEnv (Except.error "boom".data) "u1".data (Except.ok 200) (Except.ok "T".data))
        "o".data "u".data "o/2025010101/h".data ["d1".data, "d2".data] []).1.length = 2 :=
  ⟨(fetch_page_contains_errors "o".data "u".data "d".data "o/2025010101/h".data).1
      _ _ _ rfl (by decide),
   (fetch_page_contains_errors "o".data "u".data "o/2025010101/h".data "o/2025010101/h".data).2.2
      _ ["d1".data, "d2".data] []⟩

/-! ## Zero-width image normalization (C8) -/

/-- C8: when the decoded image reports width zero, `resize_screenshot`
returns `False` without raising and leaves the stored bytes (and the
whole filesystem) untouched; the aspect-ratio division is never reached. -/
theorem resize_screenshot_zero_width (oracle : ImgOracle) (fs : FS)
    (imagePath bytes : Str) (img : Img) (width : Nat)
    (hl : fsLookup fs imagePath = some bytes)
    (ho : oracle.openImg bytes = Except.ok img)
    (hw : img.width = 0) :
    resize_screenshot oracle fs imagePath width = (false, fs) := by
  simp [resize_screenshot, hl, ho, hw]

/-- Witness for C8: a store with one image whose decoder reports width
zero; resizing returns `False` and the store is unchanged. -/
theorem resize_screenshot_zero_width_witness :
    resize_screenshot zeroWidthImgOracle [("p".data, "B".data)] "p".data 500
      = (false, [("p".data, "B".data)]) :=
  resize_screenshot_zero_width zeroWidthImgOracle [("p".data, "B".data)]
    "p".data "B".data { width := 0, height := 300 } 500 (by decide) rfl rfl

/-! ## Redirect-limit properties (C7) -/

/-- Under a limit-exhausting chain `fetch_url` returns the `0` marker. -/
theorem fetch_url_limitZero_of_redirects (env : FetchEnv) :
    ∀ (limit : Nat) (url : Str), redirectsAtLeast env limit url →
      (fetch_url env limit url).2 = RespVal.limitZero := by
  intro limit
  induction limit with
  | zero => intro url _; rfl
  | succ k ih =>
    intro url hred
    simp only [redirectsAtLeast] at hred
    cases hget : env.get url with
    | ok st loc =>
      cases loc with
      | none => rw [hget] at hred; exact absurd hred (by simp)
      | some l =>
        rw [hget] at hred
        obtain ⟨hcode, hrest⟩ := hred
        simp only [fetch_url, hget, hcode, if_true]
        exact ih (env.urljoin url l) hrest
    | sockErr => rw [hget] at hred; exact absurd hred (by simp)
    | exn m => rw [hget] at hred; exact absurd hred (by simp)

/-- C7: `fetch_url` follows at most `limit` redirect hops for every URL
and every non-negative limit, and when the redirect chain exceeds the
configured hop limit the legacy `fetch_page` guard records the distinct
`too_many_redirects` status — a normal return, not an exception. -/
theorem fetch_url_bounded_redirects (env : FetchEnv) (limit : Nat) (url : Str) :
    fetch_url_hops env limit url ≤ limit
    ∧ (redirectsAtLeast env limit url →
      fetch_page_redirect_guard (fetch_url env limit url)
        = some { location := some (fetch_url env limit url).1,
                 code := some (PyVal.str "too_many_redirects".data) }) := by
  constructor
  · induction limit generalizing url with
    | zero => exact Nat.le_refl 0
    | succ k ih =>
      simp only [fetch_url_hops]
      cases hget : env.get url with
      | ok st loc =>
        cases hcode : isRedirectCode st with
        | false => simp [hcode]
        | true =>
          cases loc with
          | none => simp [hcode]
          | some l =>
            simp only [hcode, if_true]
            have := ih (env.urljoin url l)
            omega
      | sockErr => simp
      | exn m => simp
  · intro hred
    have hz := fetch_url_limitZero_of_redirects env limit url hred
    cases hp : fetch_url env limit url with
    | mk u r =>
      rw [hp] at hz
      simp only at hz
      rw [hz]
      rfl

/-- Witness for C7: with every URL redirecting, limit 2 is exhausted
after at most 2 hops and the guard reports `too_many_redirects`. -/
theorem fetch_url_bounded_redirects_witness :
    fetch_url_hops alwaysRedirectEnv 2 "a".data ≤ 2
    ∧ fetch_page_redirect_guard (fetch_url alwaysRedirectEnv 2 "a".data)
      = some { location := some (fetch_url alwaysRedirectEnv 2 "a".data).1,
               code := some (PyVal.str "too_many_redirects".data) } :=
  ⟨(fetch_url_bounded_redirects alwaysRedirectEnv 2 "a".data).1,
   (fetch_url_bounded_redirects alwaysRedirectEnv 2 "a".data).2
    ⟨rfl, rfl, trivial⟩⟩

/-! ## Filesystem lemmas -/

theorem fsLookup_filter_key (fs : FS) (p q : Str) :
    fsLookup (fs.filter (fun e => !(e.1 == p))) q
      = if q = p then none else fsLookup fs q := by
  induction fs with
  | nil => simp [fsLookup]
  | cons e es ih =>
    simp only [List.filter_cons]
    cases hep : (e.1 == p) with
    | true =>
      have hep' : e.1 = p := by simpa using hep
      simp only [hep, Bool.not_true, Bool.false_eq_true, if_false]
      rw [ih]
      by_cases hqp : q = p
      · simp [hqp]
      · have : (e.1 == q) = false := by
          simp [hep']
          intro h
          exact absurd h.symm hqp
        simp [hqp, fsLookup, List.find?_cons, this]
    | false =>
      simp only [hep, Bool.not_false, if_true]
      cases heq : (e.1 == q) with
      | true =>
        have heq' : e.1 = q := by simpa using heq
        have hqp : ¬ q = p := by
          intro h
          rw [h] at heq'
          rw [heq'] at hep
          simp at hep
        simp [fsLookup, List.find?_cons, heq, hqp]
      | false =>
        simp only [fsLookup, List.find?_cons, heq]
        rw [← fsLookup, ← fsLookup, ih]

theorem fsLookup_fsRemove (fs : FS) (p q : Str) :
    fsLookup (fsRemove fs p) q = if q = p then none else fsLookup fs q :=
  fsLookup_filter_key fs p q

theorem fsLookup_fsWrite (fs : FS) (p c q : Str) :
    fsLookup (fsWrite fs p c) q = if q = p then some c else fsLookup fs q := by
  by_cases hqp : q = p
  · simp [fsWrite, fsLookup, List.find?_cons, hqp]
  · have hpq : (p == q) = false := by
      simp
      intro h
      exact absurd h.symm hqp
    simp only [fsWrite, fsLookup, List.find?_cons, hpq]
    rw [← fsLookup, ← fsLookup]
    rw [fsLookup_filter_key fs p q]
    simp [hqp]

/-! ## Decimal representation lemmas (for the status-code line) -/

theorem decVal_append_single (xs : Str) (c : Char) :
    decVal (xs ++ [c]) = decVal xs * 10 + (c.toNat - 48) := by
  simp [decVal, List.foldl_append]

theorem digitChar_isDigit : ∀ k : Nat, k < 10 → (Nat.digitChar k).isDigit = true := by
  decide

theorem digitChar_toNat : ∀ k : Nat, k < 10 → (Nat.digitChar k).toNat - 48 = k := by
  decide

theorem natDecimalAux_isDigit :
    ∀ (fuel n : Nat) (c : Char), c ∈ natDecimalAux fuel n → c.isDigit = true := by
  intro fuel
  induction fuel with
  | zero => intro n c hc; simp [natDecimalAux] at hc
  | succ f ih =>
    intro n c hc
    simp only [natDecimalAux] at hc
    by_cases hn : n < 10
    · rw [if_pos hn] at hc
      simp at hc
      rw [hc]
      exact digitChar_isDigit n hn
    · rw [if_neg hn] at hc
      rw [List.mem_append] at hc
      rcases hc with hc | hc
      · exact ih (n / 10) c hc
      · simp at hc
        rw [hc]
        exact digitChar_isDigit (n % 10) (Nat.mod_lt n (by omega))

theorem decVal_natDecimalAux :
    ∀ (fuel n : Nat), n < fuel → decVal (natDecimalAux fuel n) = n := by
  intro fuel
  induction fuel with
  | zero => intro n hn; omega
  | succ f ih =>
    intro n hn
    simp only [natDecimalAux]
    by_cases h10 : n < 10
    · rw [if_pos h10]
      have : decVal [Nat.digitChar n] = (Nat.digitChar n).toNat - 48 := by
        simp [decVal]
      rw [this, digitChar_toNat n h10]
    · rw [if_neg h10]
      rw [decVal_append_single, digitChar_toNat (n % 10) (Nat.mod_lt n (by omega))]
      have hdiv : n / 10 < f := by
        have : n / 10 < n := Nat.div_lt_self (by omega) (by omega)
        omega
      rw [ih (n / 10) hdiv]
      omega

theorem natDecimal_inj {a b : Nat} (h : natDecimal a = natDecimal b) : a = b := by
  have ha := decVal_natDecimalAux (a + 1) a (Nat.lt_succ_self a)
  have hb := decVal_natDecimalAux (b + 1) b (Nat.lt_succ_self b)
  rw [← ha, ← hb]
  unfold natDecimal at h
  rw [h]

theorem newline_not_mem_natDecimal (n : Nat) : '\n' ∉ natDecimal n := by
  intro h
  have := natDecimalAux_isDigit (n + 1) n '\n' h
  simp [Char.isDigit] at this

theorem intRepr_nonneg {i : Int} (h : 0 ≤ i) : intRepr i = natDecimal i.toNat := by
  unfold intRepr
  rw [if_neg (by omega)]

theorem intRepr_inj_nonneg {a b : Int} (ha : 0 ≤ a) (hb : 0 ≤ b)
    (h : intRepr a = intRepr b) : a = b := by
  rw [intRepr_nonneg ha, intRepr_nonneg hb] at h
  have := natDecimal_inj h
  omega

theorem newline_not_mem_intRepr {i : Int} (h : 0 ≤ i) : '\n' ∉ intRepr i := by
  rw [intRepr_nonneg h]
  exact newline_not_mem_natDecimal i.toNat

/-- Splitting at the first newline is unambiguous: two decompositions
`a ++ '\n' :: tail` with newline-free heads agree on head and tail. -/
theorem append_newline_inj :
    ∀ {a b tail tail' : Str}, '\n' ∉ a → '\n' ∉ b →
      a ++ '\n' :: tail = b ++ '\n' :: tail' → a = b ∧ tail = tail' := by
  intro a
  induction a with
  | nil =>
    intro b tail tail' _ hb h
    cases b with
    | nil => simpa using h
    | cons x xs =>
      simp only [List.nil_append, List.cons_append, List.cons.injEq] at h
      exact absurd (h.1 ▸ List.mem_cons_self x xs) (h.1 ▸ hb)
  | cons c cs ih =>
    intro b tail tail' ha hb h
    cases b with
    | nil =>
      simp only [List.nil_append, List.cons_append, List.cons.injEq] at h
      exact absurd (h.1 ▸ List.mem_cons_self c cs) (fun hm => ha (h.1 ▸ hm))
    | cons x xs =>
      simp only [List.cons_append, List.cons.injEq] at h
      obtain ⟨hcx, hrest⟩ := h
      have ha' : '\n' ∉ cs := fun hm => ha (List.mem_cons_of_mem c hm)
      have hb' : '\n' ∉ xs := fun hm => hb (List.mem_cons_of_mem x hm)
      obtain ⟨h1, h2⟩ := ih ha' hb' hrest
      exact ⟨by rw [hcx, h1], h2⟩

/-- Two text artifacts with the same page text but a different resolved
URL or a different (non-negative) status code are different byte strings. -/
theorem htmlFileContent_ne {loc loc' : Str} {st st' : Int} {txt : Str}
    (hl : '\n' ∉ loc) (hl' : '\n' ∉ loc') (hst : 0 ≤ st) (hst' : 0 ≤ st')
    (hd : loc ≠ loc' ∨ st ≠ st') :
    htmlFileContent loc st txt ≠ htmlFileContent loc' st' txt := by
  intro heq
  simp only [htmlFileContent, nl, List.append_assoc, List.singleton_append] at heq
  obtain ⟨h1, h2⟩ := append_newline_inj hl hl' heq
  obtain ⟨h3, -⟩ :=
    append_newline_inj (newline_not_mem_intRepr hst) (newline_not_mem_intRepr hst') h2
  rcases hd with hd | hd
  · exact hd h1
  · exact hd (intRepr_inj_nonneg hst hst' h3)

/-! ## C10: the text decision compares the whole artifact, the digest
only the page text -/

/-- C10: the identical-vs-different decision for text compares the
entire stored artifact (URL line, status line, page text), so equal page
text with a different resolved URL or status code is classified
`different` (and the new file kept, the store unchanged); meanwhile the
digest in the emitted result is the hash of the page text alone. -/
theorem text_compare_whole_artifact :
    (∀ (outputDir user domain directory html_file : Str) (fs : FS) (prev loc loc' : Str)
      (st st' : Int) (txt : Str),
      find_previous_txt_file outputDir user domain directory fs = some prev →
      fsLookup fs html_file = some (htmlFileContent loc st txt) →
      fsLookup fs prev = some (htmlFileContent loc' st' txt) →
      '\n' ∉ loc → '\n' ∉ loc' → 0 ≤ st → 0 ≤ st' →
      (loc ≠ loc' ∨ st ≠ st') →
      txtCompareStage outputDir user domain directory html_file fs
        = (some "different".data, extractRunPart prev, fs))
    ∧ (∀ (env : Env) (outputDir user domain directory : Str) (fs : FS) (shot txt : Str),
      env.captureScreenshot = Except.ok shot →
      env.pageText = Except.ok txt →
      (fsExists fs (pathJoin directory (user ++ "-".data ++ domain ++ ".txt".data)) &&
        fsExists fs (pathJoin directory (user ++ "-".data ++ domain ++ ".png".data))) = false →
      (fetch_page env outputDir user domain directory fs).1.digest
        = some (env.sha256hex txt)) := by
  constructor
  · intro outputDir user domain directory html_file fs prev loc loc' st st' txt
      hfind hcur hprev hl hl' hst hst' hdiff
    have hne : (htmlFileContent loc st txt == htmlFileContent loc' st' txt) = false := by
      rw [beq_eq_false_iff_ne]
      exact htmlFileContent_ne hl hl' hst hst' hdiff
    simp only [txtCompareStage, hfind, hcur, hprev, hne, Bool.false_eq_true, if_false]
  · intro env outputDir user domain directory fs shot txt hcap htxt hex
    simp only [fetch_page]
    rw [hex, hcap, htxt]
    simp only [Bool.false_eq_true, if_false]
    split <;> simp [buildResult]

/-- Witness for C10: same page text, different resolved URL — the stage
classifies `different` and keeps the store; and the digest of a normal
run hashes the page text alone. -/
theorem text_compare_whole_artifact_witness :
    txtCompareStage "o".data "u".data "d".data "o/2025010102/h".data
        "o/2025010102/h/u-d.txt".data
        [("o/2025010102/h/u-d.txt".data, htmlFileContent "https://d/new".data 200 "T".data),
         ("o/2025010101/h/u-d.txt".data, htmlFileContent "https://d/old".data 200 "T".data)]
      = (some "different".data, extractRunPart "o/2025010101/h/u-d.txt".data,
         [("o/2025010102/h/u-d.txt".data, htmlFileContent "https://d/new".data 200 "T".data),
          ("o/2025010101/h/u-d.txt".data, htmlFileContent "https://d/old".data 200 "T".data)])
    ∧ (fetch_page (mkEnv (Except.ok "S".data) "https://d".data (Except.ok 200)
          (Except.ok "T".data)) "o".data "u".data "d".data "o/2025010102/h".data []).1.digest
      = some "T".data :=
  ⟨text_compare_whole_artifact.1 "o".data "u".data "d".data "o/2025010102/h".data
      "o/2025010102/h/u-d.txt".data
      [("o/2025010102/h/u-d.txt".data, htmlFileContent "https://d/new".data 200 "T".data),
       ("o/2025010101/h/u-d.txt".data, htmlFileContent "https://d/old".data 200 "T".data)]
      "o/2025010101/h/u-d.txt".data "https://d/new".data "https://d/old".data 200 200 "T".data
      (by decide) (by decide) (by decide) (by decide) (by decide) (by decide) (by decide)
      (Or.inl (by decide)),
   text_compare_whole_artifact.2 (mkEnv (Except.ok "S".data) "https://d".data (Except.ok 200)
      (Except.ok "T".data)) "o".data "u".data "d".data "o/2025010102/h".data [] "S".data "T".data
      rfl rfl (by decide)⟩

/-! ## C3: the retention policy -/

theorem fsLookup_fsRemove_self (fs : FS) (p : Str) :
    fsLookup (fsRemove fs p) p = none := by
  rw [fsLookup_fsRemove]
  simp

theorem fsLookup_fsRemove_of_none {fs : FS} {q : Str} (p : Str)
    (h : fsLookup fs q = none) : fsLookup (fsRemove fs p) q = none := by
  rw [fsLookup_fsRemove]
  split
  · rfl
  · exact h

/-- C3 (amended): retention per kind.  For text: a found predecessor
with byte-identical content deletes the just-written text artifact and
marks `deleted_duplicate`, with the predecessor run id extracted from
the predecessor path; differing content keeps the file and marks
`different`.  For the screenshot: a hash distance at or below the
threshold 5 deletes the just-written screenshot and any diff overlay and
marks `deleted_identical` (not `deleted_duplicate` — that string is the
text status only); a larger distance keeps the screenshot and marks
`different`. -/
theorem retention_policy_per_kind :
    (∀ (outputDir user domain directory html_file : Str) (fs : FS) (prev c : Str),
      find_previous_txt_file outputDir user domain directory fs = some prev →
      fsLookup fs html_file = some c →
      fsLookup fs prev = some c →
      txtCompareStage outputDir user domain directory html_file fs
        = (some "deleted_duplicate".data, extractRunPart prev, fsRemove fs html_file)
      ∧ fsLookup (fsRemove fs html_file) html_file = none)
    ∧ (∀ (outputDir user domain directory html_file : Str) (fs : FS) (prev c c' : Str),
      find_previous_txt_file outputDir user domain directory fs = some prev →
      fsLookup fs html_file = some c →
      fsLookup fs prev = some c' →
      c ≠ c' →
      txtCompareStage outputDir user domain directory html_file fs
        = (some "different".data, extractRunPart prev, fs))
    ∧ (∀ (oracle : ImgOracle) (outputDir domain directory png_file : Str) (fs : FS)
        (prev b1 b2 : Str) (h1 h2 : List Bool),
      find_previous_screenshot outputDir domain directory fs = some prev →
      fsLookup fs png_file = some b1 →
      fsLookup fs prev = some b2 →
      oracle.phash b1 = Except.ok h1 →
      oracle.phash b2 = Except.ok h2 →
      hammingDistance h1 h2 ≤ HASH_DISTANCE_THRESHOLD →
      (screenshotCompareStage oracle outputDir domain directory png_file fs).1
          = some (hammingDistance h1 h2)
      ∧ (screenshotCompareStage oracle outputDir domain directory png_file fs).2.1
          = some "deleted_identical".data
      ∧ (screenshotCompareStage oracle outputDir domain directory png_file fs).2.2.1
          = extractRunPart prev
      ∧ fsLookup (screenshotCompareStage oracle outputDir domain directory png_file fs).2.2.2
          png_file = none
      ∧ fsLookup (screenshotCompareStage oracle outputDir domain directory png_file fs).2.2.2
          (strReplace png_file ".png".data "-diff.png".data) = none)
    ∧ (∀ (oracle : ImgOracle) (outputDir domain directory png_file : Str) (fs : FS)
        (prev b1 b2 : Str) (h1 h2 : List Bool),
      find_previous_screenshot outputDir domain directory fs = some prev →
      fsLookup fs png_file = some b1 →
      fsLookup fs prev = some b2 →
      oracle.phash b1 = Except.ok h1 →
      oracle.phash b2 = Except.ok h2 →
      HASH_DISTANCE_THRESHOLD < hammingDistance h1 h2 →
      strReplace png_file ".png".data "-diff.png".data ≠ png_file →
      (screenshotCompareStage oracle outputDir domain directory png_file fs).1
          = some (hammingDistance h1 h2)
      ∧ (screenshotCompareStage oracle outputDir domain directory png_file fs).2.1
          = some "different".data
      ∧ (screenshotCompareStage oracle outputDir domain directory png_file fs).2.2.1
          = extractRunPart prev
      ∧ fsLookup (screenshotCompareStage oracle outputDir domain directory png_file fs).2.2.2
          png_file = some b1) := by
  refine ⟨?_, ?_, ?_, ?_⟩
  · intro outputDir user domain directory html_file fs prev c hfind hcur hprev
    refine ⟨?_, fsLookup_fsRemove_self fs html_file⟩
    simp only [txtCompareStage, hfind, hcur, hprev, beq_self_eq_true, if_true]
  · intro outputDir user domain directory html_file fs prev c c' hfind hcur hprev hne
    have hbe : (c == c') = false := beq_eq_false_iff_ne.mpr hne
    simp only [txtCompareStage, hfind, hcur, hprev, hbe, Bool.false_eq_true, if_false]
  · intro oracle outputDir domain directory png_file fs prev b1 b2 h1 h2
      hfind hb1 hb2 hh1 hh2 hdist
    have hlt : (HASH_DISTANCE_THRESHOLD < hammingDistance h1 h2) = False := by
      simp only [eq_iff_iff, iff_false]
      omega
    simp only [screenshotCompareStage, hfind, compare_screenshots, hb1, hb2, hh1, hh2,
      hlt, decide_False, Bool.and_false, Bool.false_eq_true, if_false, if_pos hdist]
    refine ⟨trivial, trivial, trivial, ?_, ?_⟩
    · by_cases hex :
        fsExists (fsRemove fs png_file) (strReplace png_file ".png".data "-diff.png".data) = true
      · rw [if_pos hex]
        exact fsLookup_fsRemove_of_none _ (fsLookup_fsRemove_self fs png_file)
      · rw [if_neg hex]
        exact fsLookup_fsRemove_self fs png_file
    · by_cases hex :
        fsExists (fsRemove fs png_file) (strReplace png_file ".png".data "-diff.png".data) = true
      · rw [if_pos hex]
        exact fsLookup_fsRemove_self _ _
      · rw [if_neg hex]
        simp only [fsExists, Bool.not_eq_true] at hex
        cases hval : fsLookup (fsRemove fs png_file)
            (strReplace png_file ".png".data "-diff.png".data) with
        | none => rfl
        | some v => rw [hval] at hex; simp at hex
  · intro oracle outputDir domain directory png_file fs prev b1 b2 h1 h2
      hfind hb1 hb2 hh1 hh2 hdist hdne
    by_cases hde : (strReplace png_file ".png".data "-diff.png".data).isEmpty = true
    · -- an empty diff path is falsy in Python: no diff is written
      have hlt : (HASH_DISTANCE_THRESHOLD < hammingDistance h1 h2) = True := by
        simp only [eq_iff_iff, iff_true]
        exact hdist
      simp only [screenshotCompareStage, hfind, compare_screenshots, hb1, hb2, hh1, hh2,
        hde, Bool.not_true, Bool.false_and, Bool.false_eq_true, if_false,
        if_neg (by omega : ¬ hammingDistance h1 h2 ≤ HASH_DISTANCE_THRESHOLD)]
      exact ⟨trivial, trivial, trivial, trivial⟩
    · have hde' : (strReplace png_file ".png".data "-diff.png".data).isEmpty = false := by
        simp only [Bool.not_eq_true] at hde
        exact hde
      have hlt : (HASH_DISTANCE_THRESHOLD < hammingDistance h1 h2) = True := by
        simp only [eq_iff_iff, iff_true]
        exact hdist
      simp only [screenshotCompareStage, hfind, compare_screenshots, hb1, hb2, hh1, hh2,
        hde', hlt, decide_True, Bool.not_false, Bool.true_and, if_true,
        if_neg (by omega : ¬ hammingDistance h1 h2 ≤ HASH_DISTANCE_THRESHOLD)]
      refine ⟨trivial, trivial, trivial, ?_⟩
      rw [fsLookup_fsWrite]
      rw [if_neg (fun h => hdne h.symm)]
      exact hb1

/-- Counterexample to C3 as stated: a second capture of `d` whose
screenshot is byte-identical to the predecessor (hash distance 0 ≤ 5)
does delete the new screenshot and populate the predecessor run id, but
the recorded image status is `deleted_identical`, not the
`deleted_duplicate` the claim asserts for every kind. -/
theorem retention_status_counterexample :
    (fetch_page dupEnv "o".data "u".data "d".data "o/2025010102/h".data
        dupStore).1.screenshot_status = some "deleted_identical".data
    ∧ (fetch_page dupEnv "o".data "u".data "d".data "o/2025010102/h".data
        dupStore).1.screenshot_status ≠ some "deleted_duplicate".data
    ∧ fsLookup (fetch_page dupEnv "o".data "u".data "d".data "o/2025010102/h".data
        dupStore).2 "o/2025010102/h/u-d.png".data = none
    ∧ (fetch_page dupEnv "o".data "u".data "d".data "o/2025010102/h".data
        dupStore).1.screenshot_previous_run = some "2025010101".data := by
  exact ⟨by decide, by decide, by decide, by decide⟩

/-- Witness for the amended C3: an identical text predecessor deletes
the new text artifact with status `deleted_duplicate`; an identical
screenshot predecessor deletes the new screenshot with status
`deleted_identical`. -/
theorem retention_policy_per_kind_witness :
    (txtCompareStage "o".data "u".data "d".data "o/2025010102/h".data
        "o/2025010102/h/u-d.txt".data
        [("o/2025010102/h/u-d.txt".data, "C".data),
         ("o/2025010101/h/u-d.txt".data, "C".data)]
      = (some "deleted_duplicate".data, extractRunPart "o/2025010101/h/u-d.txt".data,
         fsRemove
          [("o/2025010102/h/u-d.txt".data, "C".data),
           ("o/2025010101/h/u-d.txt".data, "C".data)]
          "o/2025010102/h/u-d.txt".data)
      ∧ fsLookup (fsRemove
          [("o/2025010102/h/u-d.txt".data, "C".data),
           ("o/2025010101/h/u-d.txt".data, "C".data)]
          "o/2025010102/h/u-d.txt".data) "o/2025010102/h/u-d.txt".data = none)
    ∧ ((screenshotCompareStage plainImgOracle "o".data "d".data "o/2025010102/h".data
          "o/2025010102/h/u-d.png".data
          [("o/2025010102/h/u-d.png".data, "B".data),
           ("o/2025010101/h/u-d.png".data, "B".data)]).1
        = some (hammingDistance [] [])
      ∧ (screenshotCompareStage plainImgOracle "o".data "d".data "o/2025010102/h".data
          "o/2025010102/h/u-d.png".data
          [("o/2025010102/h/u-d.png".data, "B".data),
           ("o/2025010101/h/u-d.png".data, "B".data)]).2.1
        = some "deleted_identical".data
      ∧ (screenshotCompareStage plainImgOracle "o".data "d".data "o/2025010102/h".data
          "o/2025010102/h/u-d.png".data
          [("o/2025010102/h/u-d.png".data, "B".data),
           ("o/2025010101/h/u-d.png".data, "B".data)]).2.2.1
        = extractRunPart "o/2025010101/h/u-d.png".data
      ∧ fsLookup (screenshotCompareStage plainImgOracle "o".data "d".data "o/2025010102/h".data
          "o/2025010102/h/u-d.png".data
          [("o/2025010102/h/u-d.png".data, "B".data),
           ("o/2025010101/h/u-d.png".data, "B".data)]).2.2.2
          "o/2025010102/h/u-d.png".data = none
      ∧ fsLookup (screenshotCompareStage plainImgOracle "o".data "d".data "o/2025010102/h".data
          "o/2025010102/h/u-d.png".data
          [("o/2025010102/h/u-d.png".data, "B".data),
           ("o/2025010101/h/u-d.png".data, "B".data)]).2.2.2
          (strReplace "o/2025010102/h/u-d.png".data ".png".data "-diff.png".data) = none) :=
  ⟨retention_policy_per_kind.1 "o".data "u".data "d".data "o/2025010102/h".data
      "o/2025010102/h/u-d.txt".data
      [("o/2025010102/h/u-d.txt".data, "C".data),
       ("o/2025010101/h/u-d.txt".data, "C".data)]
      "o/2025010101/h/u-d.txt".data "C".data (by decide) (by decide) (by decide),
   retention_policy_per_kind.2.2.1 plainImgOracle "o".data "d".data "o/2025010102/h".data
      "o/2025010102/h/u-d.png".data
      [("o/2025010102/h/u-d.png".data, "B".data),
       ("o/2025010101/h/u-d.png".data, "B".data)]
      "o/2025010101/h/u-d.png".data "B".data "B".data [] []
      (by decide) (by decide) (by decide) rfl rfl (by decide)⟩

/-! ## C9: when the raw hash distance appears in the result -/

/-- A run-identifier component extracted from a path is never empty
(its length is 8 or 10). -/
theorem extractRunPart_ne_nil {p r : Str} (h : extractRunPart p = some r) : r ≠ [] := by
  unfold extractRunPart at h
  have hp := List.find?_some h
  intro hrnil
  rw [hrnil] at hp
  simp at hp

/-- Whenever the screenshot stage reports a predecessor run id, that id
is a nonempty string. -/
theorem screenshotStage_sp_nonempty {oracle : ImgOracle}
    {outputDir domain directory png_file : Str} {fs : FS}
    {hd : Option Nat} {ss sp : Option Str} {fs' : FS}
    (hstage : screenshotCompareStage oracle outputDir domain directory png_file fs
      = (hd, ss, sp, fs'))
    (r : Str) (hsp : sp = some r) : r ≠ [] := by
  cases hfind : find_previous_screenshot outputDir domain directory fs with
  | none =>
    simp only [screenshotCompareStage, hfind, Prod.mk.injEq] at hstage
    rw [← hstage.2.2.1] at hsp
    cases hsp
  | some prev =>
    cases hcmp : compare_screenshots oracle fs png_file prev
        (some (strReplace png_file ".png".data "-diff.png".data)) with
    | mk od fs1 =>
      cases od with
      | none =>
        simp only [screenshotCompareStage, hfind, hcmp, Prod.mk.injEq] at hstage
        rw [← hstage.2.2.1] at hsp
        cases hsp
      | some d =>
        by_cases hle : d ≤ HASH_DISTANCE_THRESHOLD
        · simp only [screenshotCompareStage, hfind, hcmp, if_pos hle,
            Prod.mk.injEq] at hstage
          rw [← hstage.2.2.1] at hsp
          exact extractRunPart_ne_nil hsp
        · simp only [screenshotCompareStage, hfind, hcmp, if_neg hle,
            Prod.mk.injEq] at hstage
          rw [← hstage.2.2.1] at hsp
          exact extractRunPart_ne_nil hsp

/-- C9: in the record built from a screenshot comparison, the raw hash
distance appears exactly when the comparison succeeded and the
screenshot was not deleted as identical; when it was deleted as
identical, the record carries the status and the predecessor run id but
omits the raw distance. -/
theorem screenshot_distance_emission (oracle : ImgOracle)
    (outputDir domain directory png_file : Str) (fs : FS)
    (hd : Option Nat) (ss sp : Option Str) (fs' : FS)
    (hstage : screenshotCompareStage oracle outputDir domain directory png_file fs
      = (hd, ss, sp, fs'))
    (loc : Str) (code : Int) (dg : Str) (ts tp : Option Str) :
    (∀ d : Nat,
      (buildResult loc code dg ts tp hd ss sp).screenshot_hash_distance = some d ↔
        (hd = some d ∧ ss ≠ some "deleted_identical".data))
    ∧ (ss = some "deleted_identical".data →
      (buildResult loc code dg ts tp hd ss sp).screenshot_hash_distance = none
      ∧ (buildResult loc code dg ts tp hd ss sp).screenshot_status
          = some "deleted_identical".data
      ∧ ∀ r, sp = some r →
        (buildResult loc code dg ts tp hd ss sp).screenshot_previous_run = some r) := by
  constructor
  · intro d
    by_cases hbe : (ss == some "deleted_identical".data) = true
    · have hss : ss = some "deleted_identical".data := by simpa using hbe
      simp [buildResult, hbe, hss]
    · have hss : ss ≠ some "deleted_identical".data := by
        intro h
        rw [h] at hbe
        simp at hbe
      cases hd with
      | none => simp [buildResult, hss]
      | some x => simp [buildResult, hbe, hss]
  · intro hss
    have hbe : (ss == some "deleted_identical".data) = true := by
      simp [hss]
    refine ⟨?_, ?_, ?_⟩
    · simp [buildResult, hbe]
    · simp [buildResult, pyTruthy, hss]
    · intro r hr
      have hrne := screenshotStage_sp_nonempty hstage r hr
      have hre : r.isEmpty = false := by
        cases r with
        | nil => exact absurd rfl hrne
        | cons c cs => rfl
      simp [buildResult, pyTruthy, hr, hre]

/-- Witness for C9: a concrete identical-screenshot run — the built
record omits the distance and carries status and predecessor run id. -/
theorem screenshot_distance_emission_witness :
    (buildResult "L".data 200 "D".data none none (some 0)
        (some "deleted_identical".data) (some "2025010101".data)).screenshot_hash_distance
      = none
    ∧ (buildResult "L".data 200 "D".data none none (some 0)
        (some "deleted_identical".data) (some "2025010101".data)).screenshot_status
      = some "deleted_identical".data
    ∧ (buildResult "L".data 200 "D".data none none (some 0)
        (some "deleted_identical".data) (some "2025010101".data)).screenshot_previous_run
      = some "2025010101".data :=
  have h := screenshot_distance_emission plainImgOracle "o".data "d".data
    "o/2025010102/h".data "o/2025010102/h/u-d.png".data
    [("o/2025010102/h/u-d.png".data, "B".data),
     ("o/2025010101/h/u-d.png".data, "B".data)]
    (some 0) (some "deleted_identical".data) (some "2025010101".data)
    [("o/2025010101/h/u-d.png".data, "B".data)] (by decide)
    "L".data 200 "D".data none none
  ⟨(h.2 rfl).1, (h.2 rfl).2.1, (h.2 rfl).2.2 "2025010101".data rfl⟩

end SiteChecker
